import Mathlib

/-!
Verification of the speech-enhancement repository's specification against a
shallow embedding of its source code.

The embedding covers:
* `src/datasets/noisy_librispeech/librispeech_dataset.py`
  (random chunk subsampling, length filtering, noisy-mix item construction);
* `src/datasets/scenes/tut_acoustic_scenes/scene_dataset.py`
  (label/index mappings built from `CLASS_LABELS`);
* `src/utils/checkpoint.py` (`load` dispatch on the filename suffix);
* `src/utils/trainer.py` (metric registration/tracking and the
  checkpoint-save control flow of `Trainer.train`);
* `src/utils/spectral.py` (`audio_to_spec` / `spec_to_audio` channel layout);
* `src/models/wave_u_net.py` (`WaveUNet.forward` shape semantics and the
  bounded final `Tanh` activation).

Machine floating point is modelled by exact rationals (and reals for the
final `tanh`): the claims under study are about lengths, control flow and
range bounds, not about rounding.
-/

namespace SpeechEnhancement

/-! ## NoisyLibreSpeechDataset (librispeech_dataset.py) -/

/-- Constant `AUDIO_LENGTH = 2 ** 16` from `librispeech_dataset.py`. -/
def AUDIO_LENGTH : Nat := 2 ^ 16

/-- Function `subsample_chunk_random(tensor, chunk_width)` with the random draw made
explicit: `chunk_start` is the value returned by
`random.randint(0, size - chunk_width + 1)` (inclusive bounds).  The
function asserts `chunk_width < size` (`none` models the `AssertionError`)
and returns the Python slice `tensor[chunk_start : chunk_start + chunk_width]`,
which clamps at the end of the list. -/
def subsample_chunk_random (tensor : List ℚ) (chunk_width chunk_start : Nat) :
    Option (List ℚ) :=
  if chunk_width < tensor.length then
    some ((tensor.drop chunk_start).take chunk_width)
  else
    none

/-- The drawn offset is one `random.randint(0, size - chunk_width + 1)` can
return: any natural number up to and including `size - chunk_width + 1`. -/
def drawable (tensor : List ℚ) (chunk_width chunk_start : Nat) : Prop :=
  chunk_start ≤ tensor.length - chunk_width + 1

/-- The `__init__` filter for clean/noise recordings:
`if tensor.nelement() < AUDIO_LENGTH: continue`, so a recording of `n`
samples is kept exactly when `n` is not strictly below `AUDIO_LENGTH`. -/
def recording_kept (n : Nat) : Bool :=
  if n < AUDIO_LENGTH then false else true

/-- Clipping performed in `__getitem__`:
`noise_chunk[noise_chunk > 1] = 1` followed by `noise_chunk[noise_chunk < -1] = -1`. -/
def clip_unit (x : ℚ) : ℚ :=
  if 1 < x then 1 else if x < -1 then -1 else x

/-- Method `NoisyLibreSpeechDataset.__getitem__` with the three random draws made
explicit: the clean chunk offset `rc`, the noise chunk offset `rn`, and the
integer gain from `random.randint(1, 10)`.  The final `clean_chunk + noise_chunk`
is elementwise tensor addition, which raises on a length mismatch (`none`). -/
def dataset_getitem (clean noise : List ℚ) (rc rn : Nat) (gain : ℤ) :
    Option (List ℚ × List ℚ) :=
  (subsample_chunk_random clean AUDIO_LENGTH rc).bind fun clean_chunk =>
    (subsample_chunk_random noise AUDIO_LENGTH rn).bind fun noise_chunk =>
      let scaled := noise_chunk.map fun x => x * (gain : ℚ)
      let clipped := scaled.map clip_unit
      if clean_chunk.length = clipped.length then
        some (clean_chunk, List.zipWith (· + ·) clean_chunk clipped)
      else
        none

/-! ## SceneDataset (scene_dataset.py) -/

/-- Constant `CLASS_LABELS` from `scene_dataset.py`. -/
def CLASS_LABELS : List String :=
  ["bus", "car", "forest_path", "cafe/restaurant", "residential_area",
   "library", "park", "grocery_store", "city_center", "beach", "train",
   "tram", "home", "office", "metro_station"]

/-- Mapping `self.idx_to_label`, built by `for idx, label in enumerate(CLASS_LABELS)`. -/
def idx_to_label (i : Nat) : Option String :=
  CLASS_LABELS.get? i

/-- Mapping `self.label_to_idx`, built by the same `enumerate` loop.  The labels are
pairwise distinct (`class_labels_nodup`), so the dict maps each label to its
unique position in `CLASS_LABELS`. -/
def label_to_idx (l : String) : Option Nat :=
  if l ∈ CLASS_LABELS then some (CLASS_LABELS.indexOf l) else none

theorem class_labels_nodup : CLASS_LABELS.Nodup := by decide

theorem class_labels_length : CLASS_LABELS.length = 15 := by decide

/-! ## checkpoint.py -/

def CHECKPOINT_DIR : String := "checkpoints"

/-- Python's `str.endswith(suffix)`, as a suffix test on the character
sequences of the two strings. -/
def ends_with (s suffix : String) : Bool :=
  suffix.data.isSuffixOf s.data

/-- Function `checkpoint.load(checkpoint_filename, net=None, use_cuda=True)` over an
abstract model type `M`.  `torch_load` stands for `torch.load` on the joined
path, `load_state_dict` for `net.load_state_dict(state_dict)`; the final
`.cuda()` / `.cpu()` device move does not change which model is returned.
`Except.error` models the raised `AssertionError` with its message. -/
def checkpoint_load {M : Type} (torch_load : String → M) (load_state_dict : M → M)
    (checkpoint_filename : String) (net : Option M) : Except String M :=
  if ends_with checkpoint_filename "full.ckpt" then
    Except.ok (torch_load (CHECKPOINT_DIR ++ "/" ++ checkpoint_filename))
  else
    match net with
    | none => Except.error "A model is required for loading a state dict checkpoint."
    | some n => Except.ok (load_state_dict n)

/-! ## Trainer metric tracking (trainer.py) -/

/-- Modelled from the spec: `MovingAverage` (`src/utils/trackers.py` is not
part of the sources).  The spec's data model says the tracker "holds a decayed
running estimate of a scalar metric", and its testable properties require that
after one update with value `v` from a zero/empty state the reported value
equals `v`, and that repeated identical updates converge toward that constant.
We model it as an exponentially decayed running average that starts empty. -/
structure MovingAverage where
  decay : ℚ
  state : Option ℚ

/-- Modelled from the spec: one `update(value)` call on a `MovingAverage`. -/
def MovingAverage.update (m : MovingAverage) (v : ℚ) : MovingAverage :=
  { m with
    state := some (match m.state with
      | none => v
      | some w => m.decay * w + (1 - m.decay) * v) }

/-- Modelled from the spec: the tracker's reported `value`. -/
def MovingAverage.read (m : MovingAverage) : ℚ :=
  m.state.getD 0

/-- One entry of `self.metric_fns`: `[fn, name.capitalize(), train_tracker, test_tracker]`
(the metric function itself is left abstract; only the values it produces on
each batch enter the trackers). -/
structure MetricEntry where
  name : String
  train_tracker : MovingAverage
  test_tracker : MovingAverage

/-- Method `Trainer.register_metric_fn(fn, name)`: fresh `MovingAverage(decay=0.8)`
trackers and the capitalized name. -/
def register_metric_fn (name : String) : MetricEntry :=
  { name := name.capitalize
  , train_tracker := { decay := 8 / 10, state := none }
  , test_tracker := { decay := 8 / 10, state := none } }

/-- One epoch of metric tracking in `Trainer.train`: the training loop feeds
each batch's metric value to `train_tracker.update`, then the validation loop
feeds each batch's metric value to `test_tracker.update`. -/
def run_epoch_metrics (e : MetricEntry) (trainVals testVals : List ℚ) : MetricEntry :=
  { e with
    train_tracker := trainVals.foldl MovingAverage.update e.train_tracker
  , test_tracker := testVals.foldl MovingAverage.update e.test_tracker }

/-- The per-epoch `training_info` mapping built in `Trainer.train`:
`training_info[f"Training {name}"] = train_tracker.value` and
`training_info[f"Validation {name}"] = train_tracker.value`. -/
def epoch_training_info (e : MetricEntry) : List (String × ℚ) :=
  [("Training " ++ e.name, e.train_tracker.read),
   ("Validation " ++ e.name, e.train_tracker.read)]

/-! ## Trainer checkpoint control flow (trainer.py) -/

/-- The `Trainer` attributes relevant to checkpointing.  `wandb_name = none`
means the attribute was never assigned (neither `__init__` nor `setup_wandb`
ran an assignment), so reading it raises `AttributeError`. -/
structure TrainerState where
  use_cuda : Bool
  checkpoint_epochs : Option Nat
  checkpoint_name : Option String
  use_wandb : Bool
  wandb_name : Option String

/-- Constructor `Trainer.__init__(use_cuda, wandb_name)`: sets `checkpoint_epochs`,
`checkpoint_name` to `None` and `use_wandb` to `False`; the `wandb_name`
argument is accepted but never assigned to `self`. -/
def trainer_init (use_cuda : Bool) (_wandb_name : String) : TrainerState :=
  { use_cuda := use_cuda
  , checkpoint_epochs := none
  , checkpoint_name := none
  , use_wandb := false
  , wandb_name := none }

/-- Method `Trainer.setup_wandb(wandb_project, wandb_name)`. -/
def setup_wandb (s : TrainerState) (wandb_name : String) : TrainerState :=
  { s with use_wandb := true, wandb_name := some wandb_name }

/-- Method `Trainer.setup_checkpoints(checkpoint_name, checkpoint_epochs)`. -/
def setup_checkpoints (s : TrainerState) (checkpoint_name : String)
    (checkpoint_epochs : Nat) : TrainerState :=
  { s with
    checkpoint_name := some checkpoint_name
  , checkpoint_epochs := some checkpoint_epochs }

/-- Reading `self.wandb_name` raises `AttributeError` when the attribute was
never assigned. -/
def read_wandb_name (s : TrainerState) : Except String (Option String) :=
  match s.wandb_name with
  | none => Except.error "AttributeError: Trainer object has no attribute wandb_name"
  | some w => Except.ok (some w)

/-- The periodic checkpoint logic at the top of each epoch of `Trainer.train`:
`is_checkpoint_epoch = self.checkpoint_epochs and epoch % self.checkpoint_epochs == 0`
(Python truthiness: `None` and `0` are falsy), and
`if self.checkpoint_name and is_checkpoint_epoch:
   checkpoint.save(net, self.checkpoint_name, name=self.wandb_name)` —
evaluating `self.wandb_name` happens before the save.  Returns the name
argument passed to `checkpoint.save`, if a save happens. -/
def epoch_checkpoint_step (s : TrainerState) (epoch : Nat) :
    Except String (Option (Option String)) :=
  let is_checkpoint_epoch :=
    match s.checkpoint_epochs with
    | none => false
    | some ce => decide (ce ≠ 0 ∧ epoch % ce = 0)
  match s.checkpoint_name, is_checkpoint_epoch with
  | some _, true => (read_wandb_name s).map fun w => some w
  | _, _ => Except.ok none

/-- The final save after the epoch loop of `Trainer.train`:
`if self.checkpoint_name:
   checkpoint.save(net, self.checkpoint_name, name=self.wandb_name, use_wandb=self.use_wandb)`. -/
def final_checkpoint_step (s : TrainerState) : Except String (Option (Option String)) :=
  match s.checkpoint_name with
  | none => Except.ok none
  | some _ => (read_wandb_name s).map fun w => some w

/-- The checkpoint-relevant control flow of a whole `Trainer.train(num_epochs)`
run: every epoch's periodic save attempt in order, then the final save. -/
def train_run (s : TrainerState) (num_epochs : Nat) : Except String Unit :=
  ((List.range num_epochs).foldlM
      (fun _ epoch => (epoch_checkpoint_step s epoch).map fun _ => ()) ()).bind
    fun _ => (final_checkpoint_step s).map fun _ => ()

/-! ## Spectral utilities (spectral.py)

`scipy.signal.stft` / `istft` are external; they are passed in as abstract
transforms over complex time-frequency frames, a complex number being a pair
`(re, im) : ℚ × ℚ`.  The repository code under scrutiny is what it does with
the frames: `audio_to_spec` stores `spectral_frames.real` as channel 0 and
`spectral_frames.imag` as channel 1 of an `np.stack`, and `spec_to_audio`
unpacks the two channels and recombines them as `mag + 1j * phase`. -/

/-- The `np.stack([mag_frames, phase_frames])` performed by `audio_to_spec`,
where `mag_frames = spectral_frames.real` and `phase_frames = spectral_frames.imag`. -/
def spec_stack (frames : List (List (ℚ × ℚ))) : List (List (List ℚ)) :=
  [frames.map (List.map Prod.fst), frames.map (List.map Prod.snd)]

/-- Function `audio_to_spec(audio_arr)` with the external STFT abstracted as `stft`. -/
def audio_to_spec (stft : List ℚ → List (List (ℚ × ℚ))) (audio : List ℚ) :
    List (List (List ℚ)) :=
  spec_stack (stft audio)

/-- Function `spec_to_audio(spectral_frames)` with the external inverse STFT abstracted
as `istft`: `mag, phase = spectral_frames` (raising unless there are exactly
two channels, modelled by `none`), then `istft(mag + 1j * phase)`. -/
def spec_to_audio (istft : List (List (ℚ × ℚ)) → List ℚ)
    (stack : List (List (List ℚ))) : Option (List ℚ) :=
  match stack with
  | [mag, phase] =>
      some (istft (List.zipWith (List.zipWith fun a b => (a, b)) mag phase))
  | _ => none

/-! ## WaveUNet (wave_u_net.py)

A (single batch element of a) tensor is a channel count, a temporal length
and a total valuation of channel/time indices.  All layers of the network act
independently on batch elements, so `WaveUNet.forward` is modelled on one
element.  `Option` models the runtime shape errors raised by `torch`:
`Conv1d` when the padded input is shorter than the kernel, and `torch.cat`
along the channel dimension when the temporal lengths disagree. -/

structure Tensor where
  ch : Nat
  len : Nat
  val : Nat → Nat → ℚ

/-- Constant `NUM_C = 24` from `wave_u_net.py`. -/
def NUM_C : Nat := 24

/-- Constant `NUM_ENCODER_LAYERS = 12` from `wave_u_net.py`. -/
def NUM_ENCODER_LAYERS : Nat := 12

/-- The learned data of one `ConvLayer`: convolution weights indexed by
(output channel, input channel, tap), biases, and the `PReLU` slope. -/
structure LayerData where
  weight : Nat → Nat → Nat → ℚ
  bias : Nat → ℚ
  slope : ℚ

/-- One `ConvLayer(in_channels, out_channels, kernel)` instance. -/
structure ConvParams where
  inCh : Nat
  outCh : Nat
  kernel : Nat
  data : LayerData

/-- Activation `nn.PReLU` with slope `a`. -/
def prelu (a x : ℚ) : ℚ :=  if 0 ≤ x then x else a * x

/-- Reading channel `c` of `t` zero-padded with `pad` samples on both sides. -/
def padVal (pad : Nat) (t : Tensor) (c j : Nat) : ℚ :=
  if pad ≤ j ∧ j - pad < t.len then t.val c (j - pad) else 0

/-- The `nn.Conv1d(in_channels, out_channels, kernel_size, padding=kernel // 2, bias=True)`
inside `ConvLayer`: cross-correlation of the zero-padded input with the
weights plus bias.  `torch` raises when the padded input is shorter than the
kernel; otherwise the output length is `len + 2 * (kernel / 2) - kernel + 1`. -/
def convCore (p : ConvParams) (t : Tensor) : Option Tensor :=
  if t.len + 2 * (p.kernel / 2) < p.kernel then none
  else
    some
      { ch := p.outCh
      , len := t.len + 2 * (p.kernel / 2) + 1 - p.kernel
      , val := fun o j =>
          p.data.bias o +
            ∑ c in Finset.range p.inCh, ∑ i in Finset.range p.kernel,
              p.data.weight o c i * padVal (p.kernel / 2) t c (j + i) }

/-- Method `ConvLayer.forward`: the convolution followed by the `PReLU` nonlinearity
(the output layer's `Tanh` is applied separately in `waveUNetForward`). -/
def convLayer (p : ConvParams) (t : Tensor) : Option Tensor :=
  (convCore p t).map fun t' =>
    { t' with val := fun o j => prelu p.data.slope (t'.val o j) }

/-- The decimation `acts = acts[:, :, ::2]` after each encoder. -/
def decimate (t : Tensor) : Tensor :=
  { ch := t.ch, len := (t.len + 1) / 2, val := fun c j => t.val c (2 * j) }

/-- Layer `nn.Upsample(scale_factor=2, mode="linear", align_corners=True)`: output
length `2 * len`, with `align_corners` source coordinate
`j * (len - 1) / (2 * len - 1)` and linear interpolation between the two
neighbouring samples.  A length-`1` input is copied. -/
def upsample (t : Tensor) : Tensor :=
  { ch := t.ch
  , len := 2 * t.len
  , val := fun c j =>
      if t.len ≤ 1 then t.val c 0
      else
        let pos : ℚ := ((j * (t.len - 1) : ℕ) : ℚ) / ((2 * t.len - 1 : ℕ) : ℚ)
        let lo : ℕ := Int.toNat ⌊pos⌋
        let frac : ℚ := pos - ⌊pos⌋
        (1 - frac) * t.val c lo + frac * t.val c (lo + 1) }

/-- Operation `torch.cat((t₁, t₂), dim=1)`: channel counts add; `torch` raises when the
temporal lengths differ. -/
def catChannels (t₁ t₂ : Tensor) : Option Tensor :=
  if t₁.len = t₂.len then
    some
      { ch := t₁.ch + t₂.ch
      , len := t₁.len
      , val := fun c j => if c < t₁.ch then t₁.val c j else t₂.val (c - t₁.ch) j }
  else none

/-- The encoder loop of `WaveUNet.forward`: apply each encoder, record the
pre-decimation activation as a skip connection, decimate, continue.  Returns
the final activations and the skip connections in encoder order. -/
def encodeLoop : List ConvParams → Tensor → Option (Tensor × List Tensor)
  | [], t => some (t, [])
  | p :: ps, t =>
      (convLayer p t).bind fun a =>
        (encodeLoop ps (decimate a)).map fun r => (r.1, a :: r.2)

/-- The decoder loop of `WaveUNet.forward`: upsample, concatenate the next
skip connection along the channel axis, apply the decoder layer, continue. -/
def decodeLoop : List ConvParams → Tensor → List Tensor → Option Tensor
  | [], t, _ => some t
  | _ :: _, _, [] => none
  | p :: ps, t, s :: ss =>
      (catChannels (upsample t) s).bind fun c =>
        (convLayer p c).bind fun a => decodeLoop ps a ss

/-- The learned data of a whole `WaveUNet`, as constructed by
`WaveUNet.__init__`: twelve encoders, the middle layer, twelve decoders and
the output layer. -/
structure WaveUNetData where
  encoders : Nat → LayerData
  middle : LayerData
  decoders : Nat → LayerData
  output : LayerData

/-- The encoder list from `WaveUNet.__init__`:
`ConvLayer(1, NUM_C, kernel=15)` then
`ConvLayer(i * NUM_C, (i + 1) * NUM_C, kernel=15)` for `i = 1 .. 11`. -/
def encoderParams (d : WaveUNetData) : List ConvParams :=
  (List.range NUM_ENCODER_LAYERS).map fun i =>
    { inCh := if i = 0 then 1 else i * NUM_C
    , outCh := (i + 1) * NUM_C
    , kernel := 15
    , data := d.encoders i }

/-- Layer `self.middle = ConvLayer(12 * NUM_C, 13 * NUM_C, kernel=15)`. -/
def middleParams (d : WaveUNetData) : ConvParams :=
  { inCh := 12 * NUM_C, outCh := 13 * NUM_C, kernel := 15, data := d.middle }

/-- The decoder list from `WaveUNet.__init__`:
`ConvLayer((2 * (i + 1) - 1) * NUM_C, i * NUM_C, kernel=5)` for
`i = 12 .. 1` (reversed range). -/
def decoderParams (d : WaveUNetData) : List ConvParams :=
  (List.range NUM_ENCODER_LAYERS).map fun idx =>
    { inCh := (2 * (NUM_ENCODER_LAYERS - idx + 1) - 1) * NUM_C
    , outCh := (NUM_ENCODER_LAYERS - idx) * NUM_C
    , kernel := 5
    , data := d.decoders idx }

/-- Layer `self.output = ConvLayer(NUM_C + 1, 1, kernel=1, nonlinearity=nn.Tanh)`
(its convolution; the `Tanh` is applied in `waveUNetForward`). -/
def outputParams (d : WaveUNetData) : ConvParams :=
  { inCh := NUM_C + 1, outCh := 1, kernel := 1, data := d.output }

/-- Method `WaveUNet.forward` up to the output layer's convolution: encoders with
skips, middle layer, decoders against the reversed skip list,
`torch.cat((acts, input_t), dim=1)`, and the final 1-wide convolution. -/
def waveUNetPre (d : WaveUNetData) (input : Tensor) : Option Tensor :=
  (encodeLoop (encoderParams d) input).bind fun es =>
    (convLayer (middleParams d) es.1).bind fun m =>
      (decodeLoop (decoderParams d) m es.2.reverse).bind fun dec =>
        (catChannels dec input).bind fun c => convCore (outputParams d) c

/-- A tensor whose values are reals: the output of the final `Tanh`. -/
structure RTensor where
  ch : Nat
  len : Nat
  val : Nat → Nat → ℝ

/-- Method `WaveUNet.forward`: the pre-activation output with `nn.Tanh` applied
elementwise. -/
noncomputable def waveUNetForward (d : WaveUNetData) (input : Tensor) :
    Option RTensor :=
  (waveUNetPre d input).map fun t =>
    { ch := t.ch, len := t.len, val := fun c j => Real.tanh (t.val c j) }

/-! ## Shape analysis of `WaveUNet.forward` -/

/-- Iterated ceiling halving: the temporal length after `k` decimations. -/
def iterHalf : Nat → Nat → Nat
  | 0, n => n
  | k + 1, n => iterHalf k ((n + 1) / 2)

lemma iterHalf_succ (k n : Nat) : iterHalf (k + 1) n = iterHalf k ((n + 1) / 2) :=
  rfl

lemma iterHalf_succ' (k : Nat) : ∀ n, iterHalf (k + 1) n = (iterHalf k n + 1) / 2 := by
  induction k with
  | zero => intro n; rfl
  | succ k ih => intro n; rw [iterHalf_succ, ih, iterHalf_succ]

lemma iterHalf_pos (k : Nat) : ∀ n, 0 < n → 0 < iterHalf k n := by
  induction k with
  | zero => intro n h; exact h
  | succ k ih => intro n h; rw [iterHalf_succ]; exact ih _ (by omega)

lemma iterHalf_of_dvd (k : Nat) : ∀ n, 2 ^ k ∣ n → iterHalf k n = n / 2 ^ k := by
  induction k with
  | zero => intro n _; simp [iterHalf]
  | succ k ih =>
      intro n hdvd
      obtain ⟨m, rfl⟩ := hdvd
      have hx : 2 ^ (k + 1) * m = 2 * (2 ^ k * m) := by rw [pow_succ]; ring
      have h2 : (2 ^ (k + 1) * m + 1) / 2 = 2 ^ k * m := by omega
      have hp : (0:ℕ) < 2 ^ k := Nat.pos_pow_of_pos k (by omega)
      have hp' : (0:ℕ) < 2 ^ (k + 1) := Nat.pos_pow_of_pos (k + 1) (by omega)
      rw [iterHalf_succ, h2, ih _ ⟨m, rfl⟩, Nat.mul_div_cancel_left _ hp,
        Nat.mul_div_cancel_left _ hp']

/-- The alignment condition threading the decoder loop: starting from an
activation length `a`, each skip length must be exactly `2 * a`, which then
becomes the next activation length. -/
def chainOk : Nat → List Nat → Prop
  | _, [] => True
  | a, s :: ss => 2 * a = s ∧ chainOk s ss

/-- The decoder's alignment condition on the reversed skip-length list holds
exactly when the input length is a multiple of `2 ^ n`. -/
lemma chainOk_iff_dvd (L : Nat) :
    ∀ n, chainOk (iterHalf n L)
        (((List.range n).map fun i => iterHalf i L).reverse) ↔ 2 ^ n ∣ L := by
  intro n
  induction n with
  | zero => simp [chainOk, iterHalf]
  | succ n ih =>
      rw [List.range_succ, List.map_append, List.reverse_append]
      simp only [List.map_cons, List.map_nil, List.reverse_cons, List.reverse_nil,
        List.nil_append, List.singleton_append, List.append_eq, chainOk]
      rw [ih, iterHalf_succ']
      constructor
      · rintro ⟨heven, hdvd⟩
        obtain ⟨m, rfl⟩ := hdvd
        have hiter : iterHalf n (2 ^ n * m) = m := by
          rw [iterHalf_of_dvd n _ ⟨m, rfl⟩,
            Nat.mul_div_cancel_left _ (Nat.pos_pow_of_pos n (by omega))]
        rw [hiter] at heven
        have hm : m % 2 = 0 := by omega
        obtain ⟨m', rfl⟩ := Nat.dvd_of_mod_eq_zero hm
        exact ⟨m', by rw [pow_succ]; ring⟩
      · rintro ⟨m, rfl⟩
        have hdvd : 2 ^ n ∣ 2 ^ (n + 1) * m :=
          Dvd.dvd.mul_right (pow_dvd_pow 2 (Nat.le_succ n)) m
        have hiter : iterHalf n (2 ^ (n + 1) * m) = 2 * m := by
          rw [iterHalf_of_dvd n _ hdvd, pow_succ]
          rw [show 2 ^ n * 2 * m = 2 ^ n * (2 * m) by ring,
            Nat.mul_div_cancel_left _ (Nat.pos_pow_of_pos n (by omega))]
        rw [hiter]
        exact ⟨by omega, hdvd⟩

/-- A `ConvLayer` convolution with an odd kernel succeeds on any nonempty
input and preserves the temporal length ("same" padding). -/
lemma convCore_shape (p : ConvParams) (t : Tensor) (hk : p.kernel % 2 = 1)
    (ht : 0 < t.len) :
    ∃ t', convCore p t = some t' ∧ t'.ch = p.outCh ∧ t'.len = t.len := by
  have hcond : ¬ (t.len + 2 * (p.kernel / 2) < p.kernel) := by omega
  rw [convCore, if_neg hcond]
  exact ⟨_, rfl, rfl, by simp only; omega⟩

/-- Method `ConvLayer.forward` with an odd kernel: shape of the nonlinearity output. -/
lemma convLayer_shape (p : ConvParams) (t : Tensor) (hk : p.kernel % 2 = 1)
    (ht : 0 < t.len) :
    ∃ t', convLayer p t = some t' ∧ t'.ch = p.outCh ∧ t'.len = t.len := by
  obtain ⟨t', he, hch, hlen⟩ := convCore_shape p t hk ht
  refine ⟨{ t' with val := fun o j => prelu p.data.slope (t'.val o j) }, ?_, hch, hlen⟩
  rw [convLayer, he, Option.map_some']

lemma upsample_len (t : Tensor) : (upsample t).len = 2 * t.len :=
  rfl

lemma decimate_len (t : Tensor) : (decimate t).len = (t.len + 1) / 2 :=
  rfl

/-- Operation `torch.cat` along the channel axis succeeds when the lengths agree. -/
lemma catChannels_shape (t₁ t₂ : Tensor) (h : t₁.len = t₂.len) :
    ∃ c, catChannels t₁ t₂ = some c ∧ c.ch = t₁.ch + t₂.ch ∧ c.len = t₁.len := by
  rw [catChannels, if_pos h]
  exact ⟨_, rfl, rfl, rfl⟩

/-- Operation `torch.cat` along the channel axis raises when the lengths differ. -/
lemma catChannels_none (t₁ t₂ : Tensor) (h : t₁.len ≠ t₂.len) :
    catChannels t₁ t₂ = none := by
  rw [catChannels, if_neg h]

/-- The encoder loop succeeds on any nonempty input when all kernels are odd;
the final length is the iterated ceiling half and the recorded skip
connections have the pre-decimation lengths, in encoder order. -/
lemma encodeLoop_shape :
    ∀ (ps : List ConvParams) (t : Tensor), (∀ p ∈ ps, p.kernel % 2 = 1) →
      0 < t.len →
      ∃ tf sk, encodeLoop ps t = some (tf, sk) ∧
        tf.len = iterHalf ps.length t.len ∧
        sk.map (·.len) = (List.range ps.length).map fun i => iterHalf i t.len := by
  intro ps
  induction ps with
  | nil => exact fun t _ _ => ⟨t, [], rfl, rfl, rfl⟩
  | cons p ps ih =>
      intro t hk ht
      obtain ⟨a, ha, hach, halen⟩ :=
        convLayer_shape p t (hk p (List.mem_cons_self p ps)) ht
      have hdec : 0 < (decimate a).len := by
        rw [decimate_len]
        omega
      obtain ⟨tf, sk, henc, htf, hsk⟩ :=
        ih (decimate a) (fun q hq => hk q (List.mem_cons_of_mem p hq)) hdec
      refine ⟨tf, a :: sk, ?_, ?_, ?_⟩
      · simp only [encodeLoop, ha, Option.some_bind, henc, Option.map_some']
      · rw [htf, List.length_cons, iterHalf_succ, decimate_len, halen]
      · have hfun : (fun i => iterHalf i (decimate a).len) =
            fun i => iterHalf (i + 1) t.len := by
          funext i
          rw [decimate_len, halen, iterHalf_succ]
        rw [List.map_cons, hsk, hfun, halen, List.length_cons,
          List.range_succ_eq_map, List.map_cons, List.map_map]
        rfl

/-- The decoder loop succeeds when the skip lengths satisfy the alignment
chain; the final length is the input length doubled once per stage. -/
lemma decodeLoop_some :
    ∀ (ps : List ConvParams) (sk : List Tensor) (t : Tensor),
      ps.length = sk.length → (∀ p ∈ ps, p.kernel % 2 = 1) → 0 < t.len →
      chainOk t.len (sk.map (·.len)) →
      ∃ t', decodeLoop ps t sk = some t' ∧ t'.len = 2 ^ ps.length * t.len := by
  intro ps
  induction ps with
  | nil =>
      intro sk t hlen _ _ _
      obtain rfl : sk = [] := List.eq_nil_of_length_eq_zero hlen.symm
      exact ⟨t, rfl, by simp⟩
  | cons p ps ih =>
      intro sk t hlen hk ht hchain
      match sk with
      | s :: ss =>
        simp only [List.map_cons, chainOk] at hchain
        obtain ⟨hs, hchain'⟩ := hchain
        obtain ⟨c, hcat, hcch, hclen⟩ :=
          catChannels_shape (upsample t) s (by rw [upsample_len]; exact hs)
        have hclen' : c.len = 2 * t.len := by rw [hclen, upsample_len]
        obtain ⟨a, ha, hach, halen⟩ :=
          convLayer_shape p c (hk p (List.mem_cons_self p ps)) (by omega)
        have halen' : a.len = 2 * t.len := by rw [halen, hclen']
        obtain ⟨t', hrec, ht'⟩ :=
          ih ss a (by simpa using hlen) (fun q hq => hk q (List.mem_cons_of_mem p hq))
            (by omega) (by rw [halen', hs]; exact hchain')
        refine ⟨t', ?_, ?_⟩
        · simp only [decodeLoop, hcat, Option.some_bind, ha, hrec]
        · rw [ht', halen', List.length_cons, pow_succ]
          ring

/-- The decoder loop fails (a `torch.cat` shape mismatch) as soon as the
alignment chain is broken. -/
lemma decodeLoop_none :
    ∀ (ps : List ConvParams) (sk : List Tensor) (t : Tensor),
      ps.length = sk.length → (∀ p ∈ ps, p.kernel % 2 = 1) → 0 < t.len →
      ¬ chainOk t.len (sk.map (·.len)) →
      decodeLoop ps t sk = none := by
  intro ps
  induction ps with
  | nil =>
      intro sk t hlen _ _ hchain
      obtain rfl : sk = [] := List.eq_nil_of_length_eq_zero hlen.symm
      exact absurd trivial hchain
  | cons p ps ih =>
      intro sk t hlen hk ht hchain
      match sk with
      | s :: ss =>
        simp only [List.map_cons, chainOk, not_and] at hchain
        by_cases hs : 2 * t.len = s.len
        · obtain ⟨c, hcat, hcch, hclen⟩ :=
            catChannels_shape (upsample t) s (by rw [upsample_len]; exact hs)
          have hclen' : c.len = 2 * t.len := by rw [hclen, upsample_len]
          obtain ⟨a, ha, hach, halen⟩ :=
            convLayer_shape p c (hk p (List.mem_cons_self p ps)) (by omega)
          have halen' : a.len = 2 * t.len := by rw [halen, hclen']
          have hrec : decodeLoop ps a ss = none :=
            ih ss a (by simpa using hlen) (fun q hq => hk q (List.mem_cons_of_mem p hq))
              (by omega) (by rw [halen', hs]; exact hchain hs)
          simp only [decodeLoop, hcat, Option.some_bind, ha, hrec]
        · have hcat : catChannels (upsample t) s = none :=
            catChannels_none (upsample t) s (by rw [upsample_len]; exact hs)
          simp only [decodeLoop, hcat, Option.none_bind]

lemma encoderParams_length (d : WaveUNetData) : (encoderParams d).length = 12 := by
  simp [encoderParams, NUM_ENCODER_LAYERS]

lemma encoderParams_kernel (d : WaveUNetData) :
    ∀ p ∈ encoderParams d, p.kernel % 2 = 1 := by
  intro p hp
  simp only [encoderParams, List.mem_map, List.mem_range] at hp
  obtain ⟨i, _, rfl⟩ := hp
  norm_num

lemma decoderParams_length (d : WaveUNetData) : (decoderParams d).length = 12 := by
  simp [decoderParams, NUM_ENCODER_LAYERS]

lemma decoderParams_kernel (d : WaveUNetData) :
    ∀ p ∈ decoderParams d, p.kernel % 2 = 1 := by
  intro p hp
  simp only [decoderParams, List.mem_map, List.mem_range] at hp
  obtain ⟨i, _, rfl⟩ := hp
  norm_num

/-- On a nonempty input whose length is a multiple of `2 ^ 12`, every stage of
`WaveUNet.forward` succeeds and the pre-`Tanh` output is a single channel of
the input's length. -/
lemma waveUNetPre_shape_some (d : WaveUNetData) (input : Tensor)
    (h1 : 0 < input.len) (h2 : 2 ^ 12 ∣ input.len) :
    ∃ t, waveUNetPre d input = some t ∧ t.ch = 1 ∧ t.len = input.len := by
  obtain ⟨tf, sk, henc, htf, hsk⟩ :=
    encodeLoop_shape (encoderParams d) input (encoderParams_kernel d) h1
  rw [encoderParams_length] at htf hsk
  have htfpos : 0 < tf.len := by rw [htf]; exact iterHalf_pos 12 _ h1
  obtain ⟨m, hm, hmch, hmlen⟩ := convLayer_shape (middleParams d) tf (by norm_num [middleParams]) htfpos
  have hsklen : sk.length = 12 := by
    have := congrArg List.length hsk
    simpa using this
  have hchain : chainOk m.len (sk.reverse.map (·.len)) := by
    rw [List.map_reverse, hsk, hmlen, htf]
    exact (chainOk_iff_dvd input.len 12).mpr h2
  obtain ⟨dec, hdec, hdeclen⟩ :=
    decodeLoop_some (decoderParams d) sk.reverse m
      (by rw [decoderParams_length, List.length_reverse, hsklen])
      (decoderParams_kernel d) (by omega) hchain
  have hdeclen' : dec.len = input.len := by
    rw [hdeclen, decoderParams_length, hmlen, htf, iterHalf_of_dvd 12 _ h2]
    exact Nat.mul_div_cancel' h2
  obtain ⟨c, hcat, hcch, hclen⟩ := catChannels_shape dec input hdeclen'
  have hclen' : c.len = input.len := by rw [hclen, hdeclen']
  obtain ⟨out, hout, houtch, houtlen⟩ := convCore_shape (outputParams d) c (by norm_num [outputParams]) (by omega)
  refine ⟨out, ?_, by rw [houtch]; rfl, by rw [houtlen, hclen']⟩
  simp only [waveUNetPre, henc, Option.some_bind, hm, hdec, hcat, hout]

/-- On a nonempty input whose length is not a multiple of `2 ^ 12`,
`WaveUNet.forward` hits a `torch.cat` shape mismatch in the decoder. -/
lemma waveUNetPre_shape_none (d : WaveUNetData) (input : Tensor)
    (h1 : 0 < input.len) (h2 : ¬ 2 ^ 12 ∣ input.len) :
    waveUNetPre d input = none := by
  obtain ⟨tf, sk, henc, htf, hsk⟩ :=
    encodeLoop_shape (encoderParams d) input (encoderParams_kernel d) h1
  rw [encoderParams_length] at htf hsk
  have htfpos : 0 < tf.len := by rw [htf]; exact iterHalf_pos 12 _ h1
  obtain ⟨m, hm, hmch, hmlen⟩ := convLayer_shape (middleParams d) tf (by norm_num [middleParams]) htfpos
  have hsklen : sk.length = 12 := by
    have := congrArg List.length hsk
    simpa using this
  have hchain : ¬ chainOk m.len (sk.reverse.map (·.len)) := by
    rw [List.map_reverse, hsk, hmlen, htf]
    exact fun hc => h2 ((chainOk_iff_dvd input.len 12).mp hc)
  have hdec : decodeLoop (decoderParams d) m sk.reverse = none :=
    decodeLoop_none (decoderParams d) sk.reverse m
      (by rw [decoderParams_length, List.length_reverse, hsklen])
      (decoderParams_kernel d) (by omega) hchain
  simp only [waveUNetPre, henc, Option.some_bind, hm, hdec, Option.none_bind]

/-- Function `tanh` is bounded by `[-1, 1]`. -/
lemma tanh_bounds (x : ℝ) : -1 ≤ Real.tanh x ∧ Real.tanh x ≤ 1 := by
  have key : ∀ y : ℝ, Real.tanh y < 1 := by
    intro y
    rw [Real.tanh_eq_sinh_div_cosh]
    exact (div_lt_one (Real.cosh_pos y)).mpr (Real.sinh_lt_cosh y)
  have h1 := key x
  have h2 := key (-x)
  rw [Real.tanh_neg] at h2
  constructor <;> linarith

/-- Zero learned data, used to instantiate the network in witnesses. -/
def zeroLayer : LayerData :=
  { weight := fun _ _ _ => 0, bias := fun _ => 0, slope := 0 }

/-- A `WaveUNetData` with all-zero learned data. -/
def zeroNet : WaveUNetData :=
  { encoders := fun _ => zeroLayer, middle := zeroLayer
  , decoders := fun _ => zeroLayer, output := zeroLayer }

/-- Pointwise recombination of the separated components of one frame row. -/
lemma zipWith_pair_fst_snd (r : List (ℚ × ℚ)) :
    List.zipWith (fun a b => (a, b)) (r.map Prod.fst) (r.map Prod.snd) = r := by
  induction r with
  | nil => rfl
  | cons x xs ih => simp [ih]

/-- Recombining the two stacked channels recovers the complex frames. -/
lemma spec_frames_zip (S : List (List (ℚ × ℚ))) :
    List.zipWith (List.zipWith fun a b => (a, b))
      (S.map (List.map Prod.fst)) (S.map (List.map Prod.snd)) = S := by
  induction S with
  | nil => rfl
  | cons r rs ih =>
      simp only [List.map_cons, List.zipWith_cons_cons, ih, zipWith_pair_fst_snd]

/-! ## Claim theorems -/

/-- C1: for every batch of single-channel waveforms whose length is a positive
multiple of `2 ^ 12` (two to the number of encoder layers), `WaveUNet.forward`
returns a single-channel output of the input's temporal length, every
amplitude of which lies within `[-1, 1]`, the range of the bounded final
`Tanh` nonlinearity.  (The network acts independently on batch elements, so
the statement quantifies over one waveform; `d` is the learned data.) -/
theorem wave_u_net_forward_length_and_tanh_bound (d : WaveUNetData)
    (input : Tensor) (m : Nat) (hch : input.ch = 1) (hm : 0 < m)
    (hlen : input.len = m * 2 ^ 12) :
    ∃ out, waveUNetForward d input = some out ∧ out.ch = 1 ∧
      out.len = input.len ∧ ∀ c j, -1 ≤ out.val c j ∧ out.val c j ≤ 1 := by
  have h1 : 0 < input.len := by
    rw [hlen]
    exact Nat.mul_pos hm (by norm_num)
  have h2 : 2 ^ 12 ∣ input.len := ⟨m, by rw [hlen, Nat.mul_comm]⟩
  obtain ⟨t, hp, hch', hlen'⟩ := waveUNetPre_shape_some d input h1 h2
  refine ⟨{ ch := t.ch, len := t.len, val := fun c j => Real.tanh (t.val c j) },
    ?_, hch', hlen', fun c j => tanh_bounds (t.val c j)⟩
  rw [waveUNetForward, hp, Option.map_some']

theorem wave_u_net_forward_length_and_tanh_bound_witness :
    ∃ out, waveUNetForward zeroNet { ch := 1, len := 4096, val := fun _ _ => 0 } =
        some out ∧ out.ch = 1 ∧
      out.len = ({ ch := 1, len := 4096, val := fun _ _ => 0 } : Tensor).len ∧
      ∀ c j, -1 ≤ out.val c j ∧ out.val c j ≤ 1 :=
  wave_u_net_forward_length_and_tanh_bound zeroNet
    { ch := 1, len := 4096, val := fun _ _ => 0 } 1 rfl (by norm_num) (by norm_num)

/-- C5: `WaveUNet.forward` fails with a shape mismatch exactly when the
(positive) input length is not a multiple of `2 ^ 12`: every convolutional
stage uses "same" padding and preserves temporal length, so on multiples of
`2 ^ 12` no error is hit, and on non-multiples the decoder's `torch.cat`
raises. -/
theorem wave_u_net_shape_contract (d : WaveUNetData) (input : Tensor)
    (h : 0 < input.len) :
    (waveUNetForward d input).isSome = true ↔ 2 ^ 12 ∣ input.len := by
  constructor
  · intro hs
    by_contra hdvd
    rw [waveUNetForward, waveUNetPre_shape_none d input h hdvd] at hs
    simp at hs
  · intro hdvd
    obtain ⟨t, hp, _, _⟩ := waveUNetPre_shape_some d input h hdvd
    rw [waveUNetForward, hp]
    rfl

theorem wave_u_net_shape_contract_witness :
    ((waveUNetForward zeroNet { ch := 1, len := 5, val := fun _ _ => 0 }).isSome
        = true ↔ 2 ^ 12 ∣ 5) ∧
    ((waveUNetForward zeroNet { ch := 1, len := 8192, val := fun _ _ => 0 }).isSome
        = true ↔ 2 ^ 12 ∣ 8192) :=
  ⟨wave_u_net_shape_contract zeroNet { ch := 1, len := 5, val := fun _ _ => 0 }
      (by norm_num),
   wave_u_net_shape_contract zeroNet { ch := 1, len := 8192, val := fun _ _ => 0 }
      (by norm_num)⟩

/-- C2 (refuting evaluation): `subsample_chunk_random` draws
`random.randint(0, size - chunk_width + 1)` with an inclusive upper bound, so
on a 65537-sample recording (strictly longer than the chunk width 65536) the
drawable offset `2` yields a chunk of only 65535 samples, not the declared
fixed width. -/
theorem subsample_chunk_short_at_max_draw :
    drawable (List.replicate 65537 (0 : ℚ)) 65536 2 ∧
    (subsample_chunk_random (List.replicate 65537 (0 : ℚ)) 65536 2).map
        List.length = some 65535 := by
  constructor
  · unfold drawable
    rw [List.length_replicate]
  · rw [subsample_chunk_random, if_pos (by rw [List.length_replicate]; omega),
      Option.map_some']
    rw [List.length_take, List.length_drop, List.length_replicate]
    norm_num

/-- C10: a recording of exactly `AUDIO_LENGTH` samples passes the `__init__`
discard filter (which only skips strictly shorter recordings), yet every
`__getitem__` chunking of it fails the `chunk_width < size` assertion, for
every drawn offset. -/
theorem boundary_recording_kept_but_unchunkable (t : List ℚ) (r : Nat)
    (h : t.length = AUDIO_LENGTH) :
    recording_kept AUDIO_LENGTH = true ∧
      subsample_chunk_random t AUDIO_LENGTH r = none := by
  constructor
  · rw [recording_kept, if_neg]
    omega
  · rw [subsample_chunk_random, if_neg]
    rw [h]
    omega

theorem boundary_recording_kept_but_unchunkable_witness :
    recording_kept AUDIO_LENGTH = true ∧
      subsample_chunk_random (List.replicate AUDIO_LENGTH 0) AUDIO_LENGTH 0 = none :=
  boundary_recording_kept_but_unchunkable (List.replicate AUDIO_LENGTH 0) 0
    (by rw [List.length_replicate])

/-- C6 (refuting evaluation): with a 65538-sample clean recording (offset 0
gives the 65536-sample clean chunk) and a 65537-sample noise recording, the
drawable noise offset `2` produces a 65535-sample noise chunk, and the final
`clean_chunk + noise_chunk` raises a shape mismatch, so no noisy sample is
produced at all for that draw. -/
theorem getitem_mix_shape_mismatch :
    drawable (List.replicate 65538 (0 : ℚ)) AUDIO_LENGTH 0 ∧
    drawable (List.replicate 65537 (0 : ℚ)) AUDIO_LENGTH 2 ∧
    dataset_getitem (List.replicate 65538 (0 : ℚ)) (List.replicate 65537 (0 : ℚ))
      0 2 1 = none := by
  have hc : subsample_chunk_random (List.replicate 65538 (0 : ℚ)) AUDIO_LENGTH 0 =
      some (((List.replicate 65538 (0 : ℚ)).drop 0).take AUDIO_LENGTH) := by
    rw [subsample_chunk_random, if_pos]
    rw [List.length_replicate, AUDIO_LENGTH]
    norm_num
  have hn : subsample_chunk_random (List.replicate 65537 (0 : ℚ)) AUDIO_LENGTH 2 =
      some (((List.replicate 65537 (0 : ℚ)).drop 2).take AUDIO_LENGTH) := by
    rw [subsample_chunk_random, if_pos]
    rw [List.length_replicate, AUDIO_LENGTH]
    norm_num
  refine ⟨?_, ?_, ?_⟩
  · unfold drawable
    omega
  · unfold drawable
    rw [List.length_replicate, AUDIO_LENGTH]
    norm_num
  · rw [dataset_getitem, hc, Option.some_bind, hn, Option.some_bind]
    simp only [List.length_map, List.length_take, List.length_drop,
      List.length_replicate, AUDIO_LENGTH]
    rw [if_neg]
    omega

/-- C3 (refuting evaluation): the twin trackers are updated independently
(after one training batch with metric value 1 and one validation batch with
metric value 0, the train tracker reads 1 and the test tracker reads 0), but
the per-epoch `training_info` mapping pairs BOTH `"Training Loss"` and
`"Validation Loss"` with the train tracker's value, ignoring the validation
tracker. -/
theorem validation_logged_from_train_tracker :
    (run_epoch_metrics (register_metric_fn "loss") [1] [0]).train_tracker.read
        = 1 ∧
    (run_epoch_metrics (register_metric_fn "loss") [1] [0]).test_tracker.read
        = 0 ∧
    epoch_training_info (run_epoch_metrics (register_metric_fn "loss") [1] [0]) =
      [("Training Loss", 1), ("Validation Loss", 1)] := by
  refine ⟨rfl, rfl, ?_⟩
  rfl

/-- C4 (refuting evaluation): with checkpointing configured but `setup_wandb`
never called, the very first periodic checkpoint save in `Trainer.train`
evaluates `self.wandb_name`, which `__init__` never assigned, and raises
`AttributeError` instead of completing training. -/
theorem train_without_wandb_raises :
    train_run (setup_checkpoints (trainer_init false "run") "ckpt" 1) 1 =
      Except.error "AttributeError: Trainer object has no attribute wandb_name" := by
  rfl

/-- C7: `checkpoint.load` dispatches on the filename suffix: a filename
ending in `"full.ckpt"` loads the full serialized model with no model
argument required, and for any other filename the missing model raises
immediately with a descriptive message, loading nothing. -/
theorem checkpoint_load_dispatch {M : Type} (torch_load : String → M)
    (load_state_dict : M → M) (fname : String) (net : Option M) :
    (ends_with fname "full.ckpt" = true →
      checkpoint_load torch_load load_state_dict fname net =
        Except.ok (torch_load (CHECKPOINT_DIR ++ "/" ++ fname))) ∧
    (ends_with fname "full.ckpt" = false → net = none →
      checkpoint_load torch_load load_state_dict fname net =
        Except.error "A model is required for loading a state dict checkpoint.") := by
  constructor
  · intro h
    rw [checkpoint_load.eq_def, if_pos h]
  · intro h hnet
    subst hnet
    rw [checkpoint_load.eq_def, if_neg (by rw [h]; exact Bool.false_ne_true)]

theorem checkpoint_load_dispatch_witness :
    checkpoint_load (fun _ => (0 : Nat)) id "unet-full.ckpt" none =
      Except.ok 0 ∧
    checkpoint_load (fun _ => (0 : Nat)) id "unet-1700000000.ckpt" none =
      Except.error "A model is required for loading a state dict checkpoint." :=
  ⟨(checkpoint_load_dispatch (fun _ => (0 : Nat)) id "unet-full.ckpt" none).1
      (by decide),
   (checkpoint_load_dispatch (fun _ => (0 : Nat)) id "unet-1700000000.ckpt" none).2
      (by decide) rfl⟩

/-- C8: for the fixed 15-element scene label list, `label_to_idx` and
`idx_to_label` are perfect inverses: every listed label round-trips through
its index, and every index in `[0, 15)` round-trips through its label. -/
theorem scene_label_maps_inverse :
    (∀ l ∈ CLASS_LABELS, (label_to_idx l).bind idx_to_label = some l) ∧
    (∀ i, i < 15 → (idx_to_label i).bind label_to_idx = some i) := by
  constructor
  · decide
  · decide

theorem scene_label_maps_inverse_witness :
    (label_to_idx "bus").bind idx_to_label = some "bus" ∧
    (idx_to_label 14).bind label_to_idx = some 14 :=
  ⟨scene_label_maps_inverse.1 "bus" (by decide),
   scene_label_maps_inverse.2 14 (by decide)⟩

/-- C9 (counterexample): channel 0 of `audio_to_spec` is
`spectral_frames.real`, not the frequency magnitude: for an STFT frame whose
single value is `-1 + 0i`, channel 0 holds `-1` while the magnitude
`√((-1)² + 0²) = 1`. -/
theorem spec_channel0_not_magnitude :
    audio_to_spec (fun _ => [[((-1 : ℚ), (0 : ℚ))]]) [(0 : ℚ)] =
      [[[(-1 : ℚ)]], [[(0 : ℚ)]]] ∧
    ((-1 : ℝ)) ≠ Real.sqrt ((-1 : ℝ) ^ 2 + (0 : ℝ) ^ 2) := by
  constructor
  · rfl
  · rw [show ((-1 : ℝ)) ^ 2 + (0 : ℝ) ^ 2 = 1 by norm_num, Real.sqrt_one]
    norm_num

/-- C9 (amended): for every input waveform, `audio_to_spec` returns a
2-channel time-frequency array whose channel 0 is the REAL PART of the
short-time Fourier transform and whose channel 1 is the IMAGINARY PART, and
`spec_to_audio` converts such a representation back to a waveform by
recombining channel 0 + i·channel 1 and applying the inverse transform (so an
inverse-of-`stft` `istft` recovers the waveform). -/
theorem spec_stack_real_imag_roundtrip (stft : List ℚ → List (List (ℚ × ℚ)))
    (istft : List (List (ℚ × ℚ)) → List ℚ) (audio : List ℚ)
    (hinv : ∀ a, istft (stft a) = a) :
    audio_to_spec stft audio =
      [(stft audio).map (List.map Prod.fst), (stft audio).map (List.map Prod.snd)] ∧
    spec_to_audio istft (audio_to_spec stft audio) = some audio := by
  refine ⟨rfl, ?_⟩
  rw [audio_to_spec, spec_stack, spec_to_audio, spec_frames_zip, hinv]

theorem spec_stack_real_imag_roundtrip_witness :
    audio_to_spec (fun a => [a.map fun x => (x, (0 : ℚ))]) [(1 : ℚ), 2] =
      [((fun a : List ℚ => [a.map fun x => (x, (0 : ℚ))]) [(1 : ℚ), 2]).map
          (List.map Prod.fst),
       ((fun a : List ℚ => [a.map fun x => (x, (0 : ℚ))]) [(1 : ℚ), 2]).map
          (List.map Prod.snd)] ∧
    spec_to_audio (fun S => (S.headD []).map Prod.fst)
      (audio_to_spec (fun a => [a.map fun x => (x, (0 : ℚ))]) [(1 : ℚ), 2]) =
      some [(1 : ℚ), 2] :=
  spec_stack_real_imag_roundtrip (fun a => [a.map fun x => (x, (0 : ℚ))])
    (fun S => (S.headD []).map Prod.fst) [(1 : ℚ), 2]
    (fun a => by
      show ([a.map fun x => (x, (0 : ℚ))].headD []).map Prod.fst = a
      rw [List.headD_cons, List.map_map]
      exact List.map_id a)

end SpeechEnhancement
